import Mathlib

/-!
Verification development for the hospital-ops batch pipeline
(file-intake-to-database reconciliation).

Shallow embedding of:
  apps/batch/parsers/inpatient_parser.py
  apps/batch/parsers/outpatient_parser.py
  apps/batch/validators/data_validator.py
  apps/batch/validators/file_validator.py
  apps/batch/importers/inpatient_importer.py
  apps/batch/importers/outpatient_importer.py
  apps/batch/worker.py

Conventions of the embedding:
* Python `str` values are Lean `String`s; all string manipulation is done on
  the underlying `List Char` so that every definition evaluates by `decide`.
* Python `datetime` values produced by the pipeline always sit at midnight
  (the parsers only produce dates), so they are modelled as a civil `Date`
  record; `datetime` subtraction `.days` is the difference of rata-die day
  numbers.  `datetime.now()` is passed in explicitly as a `Date` parameter.
* Spreadsheet cells (openpyxl `cell.value`) are `Cell`: `None`, a string, or
  a (midnight) datetime.
* Database tables are Lean lists inside one `DB` record; `gen_random_uuid()`
  is a fresh-id counter; SQL `NOW()` timestamps (`createdAt`/`updatedAt`) are
  not modelled since no pipeline logic reads them.
* Python dict rows are records with `Option` fields (a missing key is
  `none`); a `KeyError` on a required key surfaces as `Option.none` from the
  enclosing operation.
-/

namespace HospitalOps

/-- Python `str.strip()` on the character list (both ends, whitespace). -/
def stripChars (l : List Char) : List Char :=
  ((l.dropWhile Char.isWhitespace).reverse.dropWhile Char.isWhitespace).reverse

/-- Python `str.strip()`. -/
def pyStrip (s : String) : String := String.mk (stripChars s.data)

/-- Python `str.upper()` (ASCII; the Korean synonyms are unaffected). -/
def pyUpper (s : String) : String := String.mk (s.data.map Char.toUpper)

/-- Python `s.replace("-", "")` as used for phone numbers. -/
def removeHyphens (s : String) : String :=
  String.mk (s.data.filter (fun c => !(c == '-')))

/-- Zero-padded two-digit rendering, as Python `f"{n:02d}"` for `n < 100`. -/
def pad2 (n : Nat) : String := if n < 10 then "0" ++ toString n else toString n

/-- Zero-padded four-digit rendering, as `strftime("%Y")` for years `< 10000`. -/
def pad4 (n : Nat) : String :=
  if n < 10 then "000" ++ toString n
  else if n < 100 then "00" ++ toString n
  else if n < 1000 then "0" ++ toString n
  else toString n

/-- Decimal value of a digit list (all characters assumed decimal digits). -/
def digitsVal (l : List Char) : Nat :=
  l.foldl (fun n c => n * 10 + (c.toNat - ('0').toNat)) 0

/-- One decimal digit character (strptime's `\d`). -/
def isDigitCh (c : Char) : Bool := 48 ≤ c.toNat && c.toNat ≤ 57

/-- All characters are decimal digits. -/
def allDigits (l : List Char) : Bool := l.all isDigitCh

/-- Python substring containment `needle in hay` on character lists. -/
def containsSeq (needle : List Char) : List Char → Bool
  | [] => needle.isEmpty
  | a :: rest => needle.isPrefixOf (a :: rest) || containsSeq needle rest

/-- A civil calendar date (Python `datetime` at midnight). -/
structure Date where
  y : Nat
  m : Nat
  d : Nat
deriving DecidableEq, Repr

/-- Gregorian leap year. -/
def isLeap (y : Nat) : Bool := (y % 4 == 0 && y % 100 != 0) || (y % 400 == 0)

/-- Days in a month of the Gregorian calendar. -/
def daysInMonth (y m : Nat) : Nat :=
  if m == 2 then (if isLeap y then 29 else 28)
  else if m == 4 || m == 6 || m == 9 || m == 11 then 30
  else 31

/-- Calendar validity, as enforced by `datetime.strptime`. -/
def validDate (y m d : Nat) : Bool :=
  1 ≤ m && m ≤ 12 && 1 ≤ d && d ≤ daysInMonth y m

/-- Python `strftime("%Y-%m-%d")`. -/
def fmtDate (dt : Date) : String :=
  pad4 dt.y ++ "-" ++ pad2 dt.m ++ "-" ++ pad2 dt.d

/-- Rata-die style day number (days-from-civil); `b.toRd - a.toRd` models the
Python `(b - a).days` between two midnight datetimes. -/
def Date.toRd (dt : Date) : Int :=
  let y : Int := if dt.m ≤ 2 then (dt.y : Int) - 1 else (dt.y : Int)
  let era : Int := Int.fdiv y 400
  let yoe : Int := y - era * 400
  let mp : Int := if dt.m ≤ 2 then (dt.m : Int) + 9 else (dt.m : Int) - 3
  let doy : Int := Int.fdiv (153 * mp + 2) 5 + (dt.d : Int) - 1
  let doe : Int := yoe * 365 + Int.fdiv yoe 4 - Int.fdiv yoe 100 + doy
  era * 146097 + doe - 719468

/-- Build a date from year/month/day digit groups: `%Y` is exactly four
digits, `%m` and `%d` are one or two digits, calendar-checked (as
`datetime.strptime` does). -/
def buildDate (yl ml dl : List Char) : Option Date :=
  if yl.length == 4 && (1 ≤ ml.length && ml.length ≤ 2)
     && (1 ≤ dl.length && dl.length ≤ 2)
     && allDigits yl && allDigits ml && allDigits dl then
    let y := digitsVal yl
    let m := digitsVal ml
    let d := digitsVal dl
    if validDate y m d then some ⟨y, m, d⟩ else none
  else none

/-- Parse a date written with a single separator character (`%Y-%m-%d` and
its `/` and `.` variants). -/
def parseDateSep (sep : Char) (s : String) : Option Date :=
  match s.data.splitOn sep with
  | [yl, ml, dl] => buildDate yl ml dl
  | _ => none

/-- Parse the compact `%Y%m%d` shape (modelled for the eight-digit form the
EMR exports use). -/
def parseDateCompact (s : String) : Option Date :=
  let l := s.data
  if l.length == 8 && allDigits l then
    let y := digitsVal (l.take 4)
    let m := digitsVal ((l.drop 4).take 2)
    let d := digitsVal (l.drop 6)
    if validDate y m d then some ⟨y, m, d⟩ else none
  else none

/-- `datetime.strptime` against the ordered format list
`("%Y-%m-%d", "%Y/%m/%d", "%Y.%m.%d", "%Y%m%d")`; first match wins. -/
def parseDateText (s : String) : Option Date :=
  (parseDateSep '-' s).orElse fun _ =>
  (parseDateSep '/' s).orElse fun _ =>
  (parseDateSep '.' s).orElse fun _ =>
  parseDateCompact s

/-- A time of day down to minutes. -/
structure TimeHM where
  h : Nat
  m : Nat
deriving DecidableEq, Repr

/-- Python `strftime("%H:%M")` rendering (also used for the synthesized end
time, where the hour is printed with `f"{h:02d}"` even when it reaches 24). -/
def fmtHM (h m : Nat) : String := pad2 h ++ ":" ++ pad2 m

/-- One `%H`/`%M`/`%S` piece: one or two digits, bounded. -/
def hmPiece (l : List Char) (bound : Nat) : Option Nat :=
  if (1 ≤ l.length && l.length ≤ 2) && allDigits l then
    let v := digitsVal l
    if v ≤ bound then some v else none
  else none

/-- Parse `%H:%M:%S` or `%H:%M`. -/
def parseColonTime (s : String) : Option TimeHM :=
  match s.data.splitOn ':' with
  | [hl, ml, sl] =>
    match hmPiece hl 23, hmPiece ml 59, hmPiece sl 59 with
    | some h, some m, some _ => some ⟨h, m⟩
    | _, _, _ => none
  | [hl, ml] =>
    match hmPiece hl 23, hmPiece ml 59 with
    | some h, some m => some ⟨h, m⟩
    | _, _ => none
  | _ => none

/-- Parse the compact `%H%M` shape with strptime's greedy 1-2 digit `%H`. -/
def parseCompactTime (s : String) : Option TimeHM :=
  let l := s.data
  if !(allDigits l) then none
  else if l.length == 2 then some ⟨digitsVal (l.take 1), digitsVal (l.drop 1)⟩
  else if l.length == 3 then
    if digitsVal (l.take 2) ≤ 23 then
      some ⟨digitsVal (l.take 2), digitsVal (l.drop 2)⟩
    else if digitsVal (l.drop 1) ≤ 59 then
      some ⟨digitsVal (l.take 1), digitsVal (l.drop 1)⟩
    else none
  else if l.length == 4 then
    if digitsVal (l.take 2) ≤ 23 && digitsVal (l.drop 2) ≤ 59 then
      some ⟨digitsVal (l.take 2), digitsVal (l.drop 2)⟩
    else none
  else none

/-- `datetime.strptime` against `("%H:%M:%S", "%H:%M", "%H%M")`. -/
def parseTimeText (s : String) : Option TimeHM :=
  (parseColonTime s).orElse fun _ => parseCompactTime s

/-- An openpyxl cell value: `None`, a string, or a (midnight) datetime. -/
inductive Cell
  | empty
  | str (s : String)
  | dt (d : Date)
deriving DecidableEq, Repr

/-- Python `str(value)` of a cell, `none` when the value is `None`
(`str(datetime)` prints as `"YYYY-MM-DD 00:00:00"`). -/
def cellPyStr : Cell → Option String
  | .empty => none
  | .str s => some s
  | .dt d => some (fmtDate d ++ " 00:00:00")

/-- Python `str(value or "")`: `None` (and falsy `""`) become `""`. -/
def cellOrEmptyStr : Cell → String
  | .empty => ""
  | .str s => s
  | .dt d => fmtDate d ++ " 00:00:00"

/-- The active worksheet: a list of rows of cells. -/
abbrev Sheet := List (List Cell)

/-- Row `r` (1-based) of the sheet; rows past the end read as empty. -/
def getRow (sheet : Sheet) (r : Nat) : List Cell := sheet.getD (r - 1) []

/-- Cell at 1-based row `r`, column `c`; out-of-range reads as `None`. -/
def getCell (sheet : Sheet) (r c : Nat) : Cell := (getRow sheet r).getD (c - 1) .empty

/-- openpyxl `ws.max_row`. -/
def maxRow (sheet : Sheet) : Nat := sheet.length

/-- openpyxl `ws.max_column`. -/
def maxCol (sheet : Sheet) : Nat := (sheet.map List.length).foldr max 0

/-- Python dict assignment `d[k] = v`: replace in place when the key exists
(keeping its position), append otherwise. -/
def dictInsert (m : List (String × Nat)) (k : String) (v : Nat) : List (String × Nat) :=
  if m.any (fun p => p.1 == k) then m.map (fun p => if p.1 == k then (k, v) else p)
  else m ++ [(k, v)]

/-- Python dict lookup `d.get(k)`. -/
def dictLookup (m : List (String × Nat)) (k : String) : Option Nat :=
  (m.find? (fun p => p.1 == k)).map (·.2)

/-- inpatient_parser.HEADER_MAP (EMR spreadsheet header → internal field). -/
def HEADER_MAP_IN : List (String × String) :=
  [("환자번호", "emrPatientId"), ("환자ID", "emrPatientId"), ("EMR_ID", "emrPatientId"),
   ("환자명", "name"), ("이름", "name"),
   ("생년월일", "dob"), ("성별", "sex"),
   ("연락처", "phone"), ("전화번호", "phone"),
   ("입원일", "admitDate"), ("입원일자", "admitDate"),
   ("퇴원예정일", "plannedDischargeDate"),
   ("담당의", "attendingDoctor"), ("담당의사", "attendingDoctor"),
   ("병동", "wardName"), ("호실", "roomName"),
   ("베드", "bedLabel"), ("침상", "bedLabel"),
   ("상태", "status"), ("비고", "notes")]

/-- inpatient_parser.REQUIRED_FIELDS. -/
def REQUIRED_FIELDS_IN : List String :=
  ["emrPatientId", "name", "dob", "sex", "admitDate"]

/-- Lookup in `HEADER_MAP_IN`. -/
def headerLookupIn (s : String) : Option String :=
  (HEADER_MAP_IN.find? (fun p => p.1 == s)).map (·.2)

/-- The `col_map` the inpatient header scan builds for one candidate row:
for each column whose (stripped) text is a known header, assign
`col_map[field] = col_idx` (later synonym columns overwrite, dict-style). -/
def inHeaderColMap (sheet : Sheet) (rowIdx : Nat) : List (String × Nat) :=
  (List.range' 1 (maxCol sheet)).foldl
    (fun cm colIdx =>
      match cellPyStr (getCell sheet rowIdx colIdx) with
      | none => cm
      | some s =>
        match headerLookupIn (pyStrip s) with
        | some field => dictInsert cm field colIdx
        | none => cm)
    []

/-- inpatient_parser.detect_header_row: scan rows `1..min(10, max_row)`, the
first row matching at least 3 known headers wins; `none` models the
`ValueError` raised when no row qualifies. -/
def detectHeaderRow (sheet : Sheet) : Option (Nat × List (String × Nat)) :=
  (List.range' 1 (min 10 (maxRow sheet))).findSome? fun r =>
    let cm := inHeaderColMap sheet r
    if cm.length ≥ 3 then some (r, cm) else none

/-- A parsed inpatient row (`parse_row` output): `_rowNumber`/`_errors`
bookkeeping plus the normalized fields, `none` when the key is absent from
the Python dict.  Audit-only optional fields that nothing downstream reads
(attendingDoctor, wardName, roomName, bedLabel, notes) are omitted. -/
structure InRow where
  rowNumber : Nat := 0
  errs : List String := []
  emrPatientId : Option String := none
  name : Option String := none
  dob : Option Date := none
  sex : Option String := none
  phone : Option String := none
  admissionDate : Option Date := none
  plannedDischargeDate : Option Date := none
deriving DecidableEq, Repr

/-- inpatient_parser.parse_cell_date. -/
def parseCellDate : Cell → Option Date
  | .empty => none
  | .dt d => some d
  | .str s => parseDateText (pyStrip s)

/-- The sex synonym table of `parse_row`: map to M/F, pass through otherwise. -/
def normalizeSex (s : String) : String :=
  if s == "남" || s == "M" || s == "male" || s == "남자" then "M"
  else if s == "여" || s == "F" || s == "female" || s == "여자" then "F"
  else s

/-- A required string field of `parse_row`: `None`-or-blank yields the error
message, otherwise the stripped text. -/
def reqStrField (c : Cell) (emptyMsg : String) : Option String × List String :=
  match cellPyStr c with
  | none => (none, [emptyMsg])
  | some s => if pyStrip s == "" then (none, [emptyMsg]) else (some (pyStrip s), [])

/-- inpatient_parser.parse_row: normalize one row, accumulating the field
errors in source order (id, name, dob, sex, admission date). -/
def parseRowIn (cellOf : String → Cell) (rowNumber : Nat) : InRow :=
  let emrR := reqStrField (cellOf "emrPatientId") "환자번호가 비어있습니다."
  let nameR := reqStrField (cellOf "name") "환자명이 비어있습니다."
  let dob := parseCellDate (cellOf "dob")
  let eDob := if dob.isNone then ["생년월일이 올바르지 않습니다."] else []
  let sexR := reqStrField (cellOf "sex") "성별이 비어있습니다."
  let phone :=
    match cellPyStr (cellOf "phone") with
    | none => none
    | some s => if pyStrip s == "" then none else some (removeHyphens (pyStrip s))
  let admission := parseCellDate (cellOf "admitDate")
  let eAdmission := if admission.isNone then ["입원일이 올바르지 않습니다."] else []
  let planned := parseCellDate (cellOf "plannedDischargeDate")
  { rowNumber := rowNumber
    errs := emrR.2 ++ nameR.2 ++ eDob ++ sexR.2 ++ eAdmission
    emrPatientId := emrR.1
    name := nameR.1
    dob := dob
    sex := sexR.1.map normalizeSex
    phone := phone
    admissionDate := admission
    plannedDischargeDate := planned }

/-- inpatient_parser.parse_inpatient_file: header detection, required-column
check (both fatal via `Except.error`), then per-row extraction skipping rows
whose anchor cell (first `col_map` column) is empty. -/
def parseInpatientFile (sheet : Sheet) : Except String (List InRow) :=
  match detectHeaderRow sheet with
  | none => .error "헤더 행을 찾을 수 없습니다. EMR 엑셀 파일 형식을 확인하세요."
  | some (headerRow, colMap) =>
    let missing := REQUIRED_FIELDS_IN.filter (fun f => (dictLookup colMap f).isNone)
    if missing.isEmpty then
      let anchorCol := (colMap.headD ("", 0)).2
      .ok <| (List.range' (headerRow + 1) (maxRow sheet - headerRow)).filterMap fun rowIdx =>
        if getCell sheet rowIdx anchorCol == Cell.empty then none
        else some (parseRowIn
          (fun f =>
            match dictLookup colMap f with
            | some c => getCell sheet rowIdx c
            | none => Cell.empty)
          rowIdx)
    else .error ("필수 컬럼이 누락되었습니다: " ++ String.intercalate ", " missing)

/-- outpatient_parser.HEADER_MAP. -/
def HEADER_MAP_OUT : List (String × String) :=
  [("환자번호", "emrPatientId"), ("환자ID", "emrPatientId"), ("EMR_ID", "emrPatientId"),
   ("환자명", "patientName"), ("이름", "patientName"),
   ("예약일", "appointmentDate"), ("예약일자", "appointmentDate"), ("진료일", "appointmentDate"),
   ("시작시간", "startTime"), ("예약시간", "startTime"), ("시작", "startTime"),
   ("종료시간", "endTime"), ("종료", "endTime"),
   ("담당의", "doctorName"), ("담당의사", "doctorName"), ("의사", "doctorName"),
   ("의사ID", "emrDoctorId"), ("EMR의사ID", "emrDoctorId"),
   ("진료실", "clinicRoomName"), ("진료실명", "clinicRoomName"),
   ("예약상태", "status"), ("상태", "status"),
   ("비고", "notes"), ("메모", "notes"),
   ("EMR예약ID", "emrAppointmentId"), ("예약번호", "emrAppointmentId")]

/-- outpatient_parser.REQUIRED_FIELDS (defined in the source; see the
required-columns theorems for whether it is enforced). -/
def REQUIRED_FIELDS_OUT : List String :=
  ["emrPatientId", "patientName", "appointmentDate", "startTime"]

/-- Lookup in `HEADER_MAP_OUT`. -/
def headerLookupOut (s : String) : Option String :=
  (HEADER_MAP_OUT.find? (fun p => p.1 == s)).map (·.2)

/-- The outpatient header mapping for one candidate row of stripped cell
texts: 0-based column indices, first synonym column wins
(`if field not in mapping`). -/
def outHeaderColMap (rowCells : List String) : List (String × Nat) :=
  rowCells.enum.foldl
    (fun m p =>
      match headerLookupOut p.2 with
      | some field => if m.any (fun q => q.1 == field) then m else m ++ [(field, p.1)]
      | none => m)
    []

/-- outpatient_parser._detect_header_row: scan rows 1..10 of
`str(cell.value or "").strip()` texts; `none` models the `ValueError`. -/
def outDetectHeader (sheet : Sheet) : Option (Nat × List (String × Nat)) :=
  (List.range' 1 10).findSome? fun r =>
    let cells := (getRow sheet r).map (fun c => pyStrip (cellOrEmptyStr c))
    let m := outHeaderColMap cells
    if m.length ≥ 3 then some (r, m) else none

/-- outpatient_parser._normalize_date: to a `"YYYY-MM-DD"` string. -/
def normalizeDate : Cell → Option String
  | .empty => none
  | .dt d => some (fmtDate d)
  | .str s => (parseDateText (pyStrip s)).map fmtDate

/-- outpatient_parser._normalize_time: to an `"HH:MM"` string (a datetime
cell is at midnight in this model, hence `"00:00"`). -/
def normalizeTime : Cell → Option String
  | .empty => none
  | .dt _ => some "00:00"
  | .str s => (parseTimeText (pyStrip s)).map (fun t => fmtHM t.h t.m)

/-- outpatient_parser._normalize_status synonym table. -/
def STATUS_MAP : List (String × String) :=
  [("예약", "BOOKED"), ("BOOKED", "BOOKED"),
   ("접수", "CHECKED_IN"), ("CHECKED_IN", "CHECKED_IN"),
   ("완료", "COMPLETED"), ("COMPLETED", "COMPLETED"),
   ("취소", "CANCELLED"), ("CANCELLED", "CANCELLED"),
   ("미방문", "NO_SHOW"), ("NO_SHOW", "NO_SHOW"),
   ("변경", "CHANGED"), ("CHANGED", "CHANGED")]

/-- outpatient_parser._normalize_status: falsy values and unknown synonyms
default to BOOKED. -/
def normalizeStatus (c : Cell) : String :=
  match cellPyStr c with
  | none => "BOOKED"
  | some s =>
    if s == "" then "BOOKED"
    else ((STATUS_MAP.find? (fun p => p.1 == pyUpper (pyStrip s))).map (·.2)).getD "BOOKED"

/-- The 30-minute end-time synthesis of parse_outpatient_file: split the
normalized `"HH:MM"` start, add 30 minutes, carry the hour (the source
never reduces the hour modulo 24).  The start string is always a normalized
`"HH:MM"`, so the fallback arm is unreachable. -/
def synthEnd (st : String) : String :=
  match st.data.splitOn ':' with
  | [hl, ml] =>
    let h := digitsVal hl
    let m := digitsVal ml + 30
    if 60 ≤ m then fmtHM (h + 1) (m - 60) else fmtHM h m
  | _ => st

/-- A parsed outpatient row (`record` dict): `_row`/`_error` bookkeeping plus
the normalized fields.  On error rows the raw field payload (used only for
the audit JSON) is not retained. -/
structure OutRow where
  row : Nat := 0
  err : Option String := none
  emrPatientId : Option String := none
  patientName : Option String := none
  emrAppointmentId : Option String := none
  appointmentDate : Option String := none
  startTime : Option String := none
  endTime : Option String := none
  doctorName : Option String := none
  emrDoctorId : Option String := none
  clinicRoomName : Option String := none
  status : Option String := none
  notes : Option String := none
deriving DecidableEq, Repr

/-- `cells[col_idx] if col_idx < len(cells) else None`, with unmapped fields
reading as `None` (`record.get(field, "")` then falsy-coalesced). -/
def outFieldCell (colMap : List (String × Nat)) (cells : List Cell) (f : String) : Cell :=
  match dictLookup colMap f with
  | some ci => cells.getD ci Cell.empty
  | none => Cell.empty

/-- One outpatient data row of parse_outpatient_file: required-field
presence, date/time normalization with end-time synthesis, status
normalization and the string cleanups, in source order. -/
def parseOutRow (colMap : List (String × Nat)) (cells : List Cell) (rowIdx : Nat) : OutRow :=
  let fieldCell := outFieldCell colMap cells
  let emrId := pyStrip (cellOrEmptyStr (fieldCell "emrPatientId"))
  if emrId == "" then { row := rowIdx, err := some "환자번호 누락" }
  else
    match normalizeDate (fieldCell "appointmentDate") with
    | none => { row := rowIdx, err := some "예약일 형식 오류" }
    | some aptDate =>
      match normalizeTime (fieldCell "startTime") with
      | none => { row := rowIdx, err := some "시작시간 형식 오류" }
      | some startTime =>
        let endTime :=
          match normalizeTime (fieldCell "endTime") with
          | some et => et
          | none => synthEnd startTime
        let strOrNone := fun (f : String) =>
          let v := pyStrip (cellOrEmptyStr (fieldCell f))
          if v == "" then none else some v
        { row := rowIdx
          err := none
          emrPatientId := some emrId
          patientName := some (pyStrip (cellOrEmptyStr (fieldCell "patientName")))
          appointmentDate := some aptDate
          startTime := some startTime
          endTime := some endTime
          status := some (normalizeStatus (fieldCell "status"))
          doctorName := some (pyStrip (cellOrEmptyStr (fieldCell "doctorName")))
          emrDoctorId := strOrNone "emrDoctorId"
          clinicRoomName := strOrNone "clinicRoomName"
          notes := strOrNone "notes"
          emrAppointmentId := strOrNone "emrAppointmentId" }

/-- outpatient_parser.parse_outpatient_file.  A header-detection failure is
caught inside the parser (the source catches the `ValueError`, logs it and
returns `[]`).  Otherwise every physical row after the header is processed,
skipping all-`None` rows. -/
def parseOutpatientFile (sheet : Sheet) : List OutRow :=
  match outDetectHeader sheet with
  | none => []
  | some (headerRow, colMap) =>
    ((sheet.drop headerRow).enumFrom (headerRow + 1)).filterMap fun p =>
      if p.2.all (fun c => c == Cell.empty) then none
      else some (parseOutRow colMap p.2 p.1)

/-- One entry of the error partition of data_validator.validate_rows. -/
structure ErrRow where
  rowNumber : Nat
  errors : List String
  raw : InRow
deriving DecidableEq, Repr

/-- The age range test of validate_rows.  The source computes
`age = (now - dob).days / 365.25` in floating point and tests
`age < 0 or age > 150`; on day counts this magnitude the float comparison is
exact and equals the integer conditions `days < 0 or 2*days > 109575`
(since `150 * 365.25 * 2 = 109575` and `days` is an integer, the boundary
`days = 54787.5` is never hit). -/
def dobOutOfRange (now dob : Date) : Bool :=
  let days := now.toRd - dob.toRd
  days < 0 || 2 * days > 109575

/-- The business-rule checks of validate_rows appended to an error-free
row's error list, in source order: dob range, admission more than 30 days in
the future, planned discharge before admission, normalized sex not M/F. -/
def rowBusinessErrors (now : Date) (row : InRow) : List String :=
  let e1 :=
    match row.dob with
    | some dob =>
      if dobOutOfRange now dob then ["생년월일이 범위를 벗어납니다: " ++ fmtDate dob] else []
    | none => []
  let e2 :=
    match row.admissionDate with
    | some ad =>
      if ad.toRd - now.toRd > 30 then ["입원일이 30일 이상 미래입니다: " ++ fmtDate ad] else []
    | none => []
  let e3 :=
    match row.plannedDischargeDate, row.admissionDate with
    | some p, some a => if p.toRd < a.toRd then ["퇴원예정일이 입원일보다 이전입니다."] else []
    | _, _ => []
  let e4 :=
    match row.sex with
    | some s =>
      if s != "" && s != "M" && s != "F" then ["성별 값이 올바르지 않습니다: " ++ s] else []
    | none => []
  e1 ++ e2 ++ e3 ++ e4

/-- The loop of data_validator.validate_rows with the `seen_ids` set made
explicit; returns (valid, errors, seen after). -/
def validateRowsAux (now : Date) (seen : List String) :
    List InRow → List InRow × List ErrRow × List String
  | [] => ([], [], seen)
  | row :: rest =>
    if row.errs.isEmpty then
      let emrId := row.emrPatientId.getD ""
      if seen.contains emrId then
        let r := validateRowsAux now seen rest
        (r.1, ⟨row.rowNumber, ["파일 내 환자번호 중복: " ++ emrId], row⟩ :: r.2.1, r.2.2)
      else
        let be := rowBusinessErrors now row
        if be.isEmpty then
          let r := validateRowsAux now (emrId :: seen) rest
          (row :: r.1, r.2.1, r.2.2)
        else
          let r := validateRowsAux now (emrId :: seen) rest
          (r.1, ⟨row.rowNumber, be, row⟩ :: r.2.1, r.2.2)
    else
      let r := validateRowsAux now seen rest
      (r.1, ⟨row.rowNumber, row.errs, row⟩ :: r.2.1, r.2.2)

/-- data_validator.validate_rows: partition parsed rows into valid rows and
error records. -/
def validateRows (now : Date) (rows : List InRow) : List InRow × List ErrRow :=
  let r := validateRowsAux now [] rows
  (r.1, r.2.1)

/-- Patient table row (timestamps and the soft-delete instant collapsed to a
`deleted` flag, since only `IS NULL` is ever queried). -/
structure Patient where
  id : Nat
  emrPatientId : String
  name : String
  dob : Date
  sex : String
  phone : Option String
  status : String
  deleted : Bool
deriving DecidableEq, Repr

/-- PatientIdentityConflict row; the before/after JSON snapshots are the
structured (name, strftime-dob, sex) triples the source serializes. -/
structure ConflictRec where
  importId : Nat
  emrPatientId : String
  beforeName : String
  beforeDob : String
  beforeSex : String
  afterName : String
  afterDob : String
  afterSex : String
  status : String
deriving DecidableEq, Repr

/-- Doctor table row. -/
structure Doctor where
  id : Nat
  name : String
  emrDoctorId : Option String
  isActive : Bool
  deleted : Bool
deriving DecidableEq, Repr

/-- ClinicRoom table row. -/
structure ClinicRoom where
  id : Nat
  name : String
  deleted : Bool
deriving DecidableEq, Repr

/-- Appointment table row.  `startAt`/`endAt` hold the timestamp strings the
importer writes; `str(existing[i])` on read-back is modelled as the stored
string itself. -/
structure Appointment where
  id : Nat
  emrAppointmentId : Option String
  patientId : Nat
  doctorId : Nat
  clinicRoomId : Option Nat
  startAt : String
  endAt : String
  status : String
  source : String
  notes : Option String
  conflictFlag : Bool
  version : Nat
  deleted : Bool
deriving DecidableEq, Repr

/-- Import ledger row (file path, timestamps and the stats JSON are not
modelled: no pipeline decision reads them). -/
structure ImportRec where
  id : Nat
  fileHash : String
  fileType : String
  status : String
deriving DecidableEq, Repr

/-- ImportError row (the raw-row JSON payload is not modelled). -/
structure ImportErrorRec where
  importId : Nat
  errorCode : String
  message : String
  rowNumber : Nat
deriving DecidableEq, Repr

/-- The relational database; `nextId` models `gen_random_uuid()` freshness. -/
structure DB where
  patients : List Patient := []
  conflicts : List ConflictRec := []
  doctors : List Doctor := []
  rooms : List ClinicRoom := []
  appointments : List Appointment := []
  imports : List ImportRec := []
  importErrors : List ImportErrorRec := []
  nextId : Nat := 0
deriving DecidableEq, Repr

/-- Which statistics counter one upserted row lands in. -/
inductive UpsertTag
  | created
  | updated
  | conflicts
  | skipped
deriving DecidableEq, Repr

/-- The stats dict both importers return. -/
structure Stats where
  created : Nat := 0
  updated : Nat := 0
  conflicts : Nat := 0
  skipped : Nat := 0
deriving DecidableEq, Repr

/-- Increment the counter a row's outcome selects. -/
def Stats.bump (s : Stats) : UpsertTag → Stats
  | .created => { s with created := s.created + 1 }
  | .updated => { s with updated := s.updated + 1 }
  | .conflicts => { s with conflicts := s.conflicts + 1 }
  | .skipped => { s with skipped := s.skipped + 1 }

/-- Sum of the four counters. -/
def Stats.total (s : Stats) : Nat := s.created + s.updated + s.conflicts + s.skipped

/-- The `SELECT ... FROM "Patient" WHERE "emrPatientId" = %s AND "deletedAt"
IS NULL` lookup of the inpatient importer. -/
def findPatient (db : DB) (emrId : String) : Option Patient :=
  db.patients.find? (fun p => p.emrPatientId == emrId && !p.deleted)

/-- inpatient_importer identity-change test: name, strftime-formatted dob,
or sex differs from the stored row. -/
def identityChanged (p : Patient) (name : String) (dob : Date) (sex : String) : Bool :=
  p.name != name || fmtDate p.dob != fmtDate dob || p.sex != sex

/-- One loop iteration of inpatient_importer.upsert_patients.  `none` models
the `KeyError` a missing required key raises (uncaught, it aborts the whole
call). -/
def upsertPatientRow (importId : Nat) (db : DB) (row : InRow) : Option (DB × UpsertTag) :=
  match row.emrPatientId, row.name, row.dob, row.sex with
  | some emrId, some name, some dob, some sex =>
    let phone := row.phone
    some <|
      match findPatient db emrId with
      | none =>
        ({ db with
            patients := db.patients ++ [⟨db.nextId, emrId, name, dob, sex, phone, "ACTIVE", false⟩]
            nextId := db.nextId + 1 },
         .created)
      | some p =>
        if identityChanged p name dob sex then
          ({ db with
              conflicts := db.conflicts ++
                [⟨importId, emrId, p.name, fmtDate p.dob, p.sex, name, fmtDate dob, sex, "OPEN"⟩] },
           .conflicts)
        else if p.phone != phone && phone.isSome then
          ({ db with
              patients := db.patients.map fun q =>
                if q.id == p.id then { q with phone := phone } else q },
           .updated)
        else (db, .skipped)
  | _, _, _, _ => none

/-- The fold of upsert_patients over the valid rows. -/
def upsertPatientsGo (importId : Nat) (db : DB) (stats : Stats) :
    List InRow → Option (DB × Stats)
  | [] => some (db, stats)
  | row :: rest =>
    match upsertPatientRow importId db row with
    | none => none
    | some (db2, tag) => upsertPatientsGo importId db2 (stats.bump tag) rest

/-- inpatient_importer.upsert_patients. -/
def upsertPatients (db : DB) (validRows : List InRow) (importId : Nat) : Option (DB × Stats) :=
  upsertPatientsGo importId db {} validRows

/-- inpatient_importer.save_import_errors: one VALIDATION_ERROR row per
error record, messages joined with `"; "`. -/
def saveImportErrors (db : DB) (importId : Nat) (errorRows : List ErrRow) : DB :=
  { db with
      importErrors := db.importErrors ++ errorRows.map fun e =>
        ⟨importId, "VALIDATION_ERROR", String.intercalate "; " e.errors, e.rowNumber⟩ }

/-- Python truthiness of an optional string. -/
def truthyOpt : Option String → Bool
  | some s => s != ""
  | none => false

/-- outpatient_importer._find_or_create_patient: lookup by emrPatientId,
else insert a minimal stub (dob 1900-01-01, sex M). -/
def findOrCreatePatientOut (db : DB) (emrPatientId patientName : String) : DB × Option Nat :=
  match db.patients.find? (fun p => p.emrPatientId == emrPatientId && !p.deleted) with
  | some p => (db, some p.id)
  | none =>
    let pid := db.nextId
    ({ db with
        patients := db.patients ++
          [⟨pid, emrPatientId, patientName, ⟨1900, 1, 1⟩, "M", none, "ACTIVE", false⟩]
        nextId := pid + 1 },
     some pid)

/-- outpatient_importer._find_or_create_doctor: by emrDoctorId if truthy,
then by name (creating when the name is truthy), else `none`. -/
def findOrCreateDoctor (db : DB) (doctorName : String) (emrDoctorId : Option String) :
    DB × Option Nat :=
  let byId :=
    if truthyOpt emrDoctorId then
      db.doctors.find? (fun d => d.emrDoctorId == emrDoctorId && !d.deleted)
    else none
  match byId with
  | some d => (db, some d.id)
  | none =>
    if doctorName != "" then
      match db.doctors.find? (fun d => d.name == doctorName && !d.deleted) with
      | some d => (db, some d.id)
      | none =>
        let did := db.nextId
        ({ db with
            doctors := db.doctors ++ [⟨did, doctorName, emrDoctorId, true, false⟩]
            nextId := did + 1 },
         some did)
    else (db, none)

/-- outpatient_importer._find_clinic_room: by name, no auto-create. -/
def findClinicRoom (db : DB) (roomName : Option String) : Option Nat :=
  match roomName with
  | some s =>
    if s == "" then none
    else (db.rooms.find? (fun r => r.name == s && !r.deleted)).map (·.id)
  | none => none

/-- The change test of upsert_appointments: the source checks Python
substring containment of the freshly composed timestamp strings in
`str(existing)` (not equality), plus doctor and status inequality. -/
def detectChanged (ap : Appointment) (startAt endAt : String) (doctorId : Nat)
    (status : String) : Bool :=
  !(containsSeq startAt.data ap.startAt.data) || !(containsSeq endAt.data ap.endAt.data)
    || doctorId != ap.doctorId || status != ap.status

/-- One loop iteration of outpatient_importer.upsert_appointments, with the
row-level `except` mapping any missing required key to `skipped`. -/
def upsertAppointmentRow (importId : Nat) (db : DB) (row : OutRow) : DB × UpsertTag :=
  match row.emrPatientId, row.appointmentDate, row.startTime, row.endTime with
  | some emrPatientId, some aptDate, some startTime, some endTime =>
    let patientName := row.patientName.getD ""
    let emrAppointmentId := row.emrAppointmentId
    let doctorName := row.doctorName.getD ""
    let emrDoctorId := row.emrDoctorId
    let clinicRoomName := row.clinicRoomName
    let status := row.status.getD "BOOKED"
    let notes := row.notes
    let pr := findOrCreatePatientOut db emrPatientId patientName
    match pr.2 with
    | none => (pr.1, .skipped)
    | some patientId =>
      let dr := findOrCreateDoctor pr.1 doctorName emrDoctorId
      match dr.2 with
      | none => (dr.1, .skipped)
      | some doctorId =>
        let db2 := dr.1
        let clinicRoomId := findClinicRoom db2 clinicRoomName
        let startAt := aptDate ++ "T" ++ startTime ++ ":00"
        let endAt := aptDate ++ "T" ++ endTime ++ ":00"
        let existing :=
          if truthyOpt emrAppointmentId then
            db2.appointments.find? (fun a => a.emrAppointmentId == emrAppointmentId && !a.deleted)
          else none
        match existing with
        | some ap =>
          if detectChanged ap startAt endAt doctorId status then
            if ap.source == "INTERNAL" then
              ({ db2 with
                  appointments := db2.appointments.map fun a =>
                    if a.id == ap.id then
                      { a with conflictFlag := true, version := a.version + 1 }
                    else a },
               .conflicts)
            else
              ({ db2 with
                  appointments := db2.appointments.map fun a =>
                    if a.id == ap.id then
                      { a with
                          startAt := startAt
                          endAt := endAt
                          doctorId := doctorId
                          clinicRoomId := clinicRoomId
                          status := status
                          notes := notes
                          source := "EMR"
                          version := a.version + 1 }
                    else a },
               .updated)
          else (db2, .skipped)
        | none =>
          let aid := db2.nextId
          ({ db2 with
              appointments := db2.appointments ++
                [⟨aid, emrAppointmentId, patientId, doctorId, clinicRoomId, startAt, endAt,
                  status, "EMR", notes, false, 0, false⟩]
              nextId := aid + 1 },
           .created)
  | _, _, _, _ => (db, .skipped)

/-- The fold of upsert_appointments over the valid rows. -/
def upsertAppointmentsGo (importId : Nat) (db : DB) (stats : Stats) :
    List OutRow → DB × Stats
  | [] => (db, stats)
  | row :: rest =>
    let r := upsertAppointmentRow importId db row
    upsertAppointmentsGo importId r.1 (stats.bump r.2) rest

/-- outpatient_importer.upsert_appointments. -/
def upsertAppointments (db : DB) (validRows : List OutRow) (importId : Nat) : DB × Stats :=
  upsertAppointmentsGo importId db {} validRows

/-- outpatient_importer.save_import_errors: one PARSE_ERROR row per error
row. -/
def saveOutpatientErrors (db : DB) (importId : Nat) (errorRows : List OutRow) : DB :=
  { db with
      importErrors := db.importErrors ++ errorRows.map fun r =>
        ⟨importId, "PARSE_ERROR", r.err.getD "알 수 없는 오류", r.row⟩ }

/-- Where the worker routes the file at the end of one processing attempt. -/
inductive FileDest
  | skipped
  | errorFolder
  | archive
deriving DecidableEq, Repr

/-- The per-file environment of one worker invocation: receipt-detector
verdict, XLSX integrity verdict, content hash, the loaded worksheet, and the
wall clock the validator reads. -/
structure FileEnv where
  ready : Bool
  integrityOk : Bool
  fileHash : String
  sheet : Sheet
  now : Date
deriving Repr

/-- file_validator.check_duplicate: `COUNT(*) > 0` over Import rows with the
same hash in status SUCCESS or PROCESSING. -/
def checkDuplicate (fileHash : String) (imports : List ImportRec) : Bool :=
  (imports.countP fun i =>
    i.fileHash == fileHash && (i.status == "SUCCESS" || i.status == "PROCESSING")) > 0

/-- worker.create_import_record: insert a PROCESSING Import row, returning
its fresh id. -/
def createImportRecord (db : DB) (fileHash fileType : String) : DB × Nat :=
  let importId := db.nextId
  ({ db with
      imports := db.imports ++ [⟨importId, fileHash, fileType, "PROCESSING"⟩]
      nextId := importId + 1 },
   importId)

/-- worker.update_import_status. -/
def setImportStatus (db : DB) (importId : Nat) (status : String) : DB :=
  { db with
      imports := db.imports.map fun i =>
        if i.id == importId then { i with status := status } else i }

/-- worker.process_inpatient_file: receipt check, integrity check, dedup,
Import creation, parse, validate, error persistence, upsert, final status,
and the file's destination.  The upsert `none` (uncaught exception) branch
takes the handler path: FAIL status, error folder (partially executed row
writes of the failing upsert are not modelled). -/
def processInpatientFile (env : FileEnv) (db : DB) : DB × FileDest :=
  if !env.ready then (db, .skipped)
  else if !env.integrityOk then (db, .errorFolder)
  else if checkDuplicate env.fileHash db.imports then (db, .archive)
  else
    let cr := createImportRecord db env.fileHash "INPATIENT"
    let db1 := cr.1
    let importId := cr.2
    match parseInpatientFile env.sheet with
    | .error _ => (setImportStatus db1 importId "FAIL", .errorFolder)
    | .ok rows =>
      if rows.isEmpty then (setImportStatus db1 importId "SUCCESS", .archive)
      else
        let vr := validateRows env.now rows
        let validRows := vr.1
        let errorRows := vr.2
        let db2 := if errorRows.isEmpty then db1 else saveImportErrors db1 importId errorRows
        match upsertPatients db2 validRows importId with
        | none => (setImportStatus db2 importId "FAIL", .errorFolder)
        | some (db3, _stats) =>
          let finalStatus := if errorRows.length == rows.length then "FAIL" else "SUCCESS"
          (setImportStatus db3 importId finalStatus, .archive)

/-- worker.process_outpatient_file: as the inpatient path, but the
valid/error split is `"_error" in r`, and the parser itself never raises for
a missing header (it returns `[]`). -/
def processOutpatientFile (env : FileEnv) (db : DB) : DB × FileDest :=
  if !env.ready then (db, .skipped)
  else if !env.integrityOk then (db, .errorFolder)
  else if checkDuplicate env.fileHash db.imports then (db, .archive)
  else
    let cr := createImportRecord db env.fileHash "OUTPATIENT"
    let db1 := cr.1
    let importId := cr.2
    let rows := parseOutpatientFile env.sheet
    if rows.isEmpty then (setImportStatus db1 importId "SUCCESS", .archive)
    else
      let errorRows := rows.filter (fun r => r.err.isSome)
      let validRows := rows.filter (fun r => r.err.isNone)
      let db2 := if errorRows.isEmpty then db1 else saveOutpatientErrors db1 importId errorRows
      let ur := upsertAppointments db2 validRows importId
      let finalStatus := if errorRows.length == rows.length then "FAIL" else "SUCCESS"
      (setImportStatus ur.1 importId finalStatus, .archive)

/-! Claim-side predicates and the concrete inputs used by witnesses and
counterexamples. -/

/-- A valid `HH:MM` time of day: two-digit hour 00-23, two-digit minute
00-59 (the property the specification asserts of the synthesized end
time). -/
def isValidHHMM (s : String) : Bool :=
  match s.data.splitOn ':' with
  | [hl, ml] =>
    hl.length == 2 && ml.length == 2 && allDigits hl && allDigits ml
      && digitsVal hl ≤ 23 && digitsVal ml ≤ 59
  | _ => false

/-- `IsPartition l l1 l2`: `l` splits into the two subsequences `l1` and
`l2` — every element of `l` lands in exactly one of them, both sides keep
the relative order of `l`, and nothing is dropped or duplicated. -/
inductive IsPartition {α : Type} : List α → List α → List α → Prop
  | nil : IsPartition [] [] []
  | left (a : α) {l l1 l2 : List α} :
      IsPartition l l1 l2 → IsPartition (a :: l) (a :: l1) l2
  | right (a : α) {l l1 l2 : List α} :
      IsPartition l l1 l2 → IsPartition (a :: l) l1 (a :: l2)

/-- The wall-clock date used by concrete evaluations. -/
def nowD : Date := ⟨2024, 6, 1⟩

/-- A spreadsheet with no qualifying header row anywhere. -/
def noHeaderSheet : Sheet := [[Cell.str "foo"], [Cell.str "bar"]]

/-- Environment delivering `noHeaderSheet` as a ready, integral file. -/
def envC5 : FileEnv := ⟨true, true, "h5", noHeaderSheet, nowD⟩

/-- An outpatient sheet whose header matches three fields (patientName,
startTime, doctorName) but is missing the required emrPatientId and
appointmentDate columns, with one data row. -/
def partialHeaderSheet : Sheet :=
  [[Cell.str "환자명", Cell.str "시작시간", Cell.str "담당의"],
   [Cell.str "김철수", Cell.str "09:00", Cell.str "이의사"]]

/-- An outpatient sheet with a 23:45 start time and no end-time column. -/
def lateStartSheet : Sheet :=
  [[Cell.str "환자번호", Cell.str "환자명", Cell.str "예약일", Cell.str "시작시간"],
   [Cell.str "P1", Cell.str "김철수", Cell.str "2024-01-02", Cell.str "23:45"]]

/-- An inpatient sheet with a header row and one clean data row. -/
def okSheet : Sheet :=
  [[Cell.str "환자번호", Cell.str "환자명", Cell.str "생년월일", Cell.str "성별", Cell.str "입원일"],
   [Cell.str "P1", Cell.str "Kim", Cell.str "1980-01-01", Cell.str "남", Cell.str "2024-01-01"]]

/-- Environment delivering `okSheet`. -/
def envC4 : FileEnv := ⟨true, true, "hash4", okSheet, nowD⟩

/-- Parser-clean row for patient P1 whose date of birth fails the age-range
business rule (year 1800). -/
def dupRow1 : InRow :=
  { rowNumber := 2, emrPatientId := some "P1", name := some "Kim",
    dob := some ⟨1800, 1, 1⟩, sex := some "M", admissionDate := some ⟨2024, 1, 1⟩ }

/-- Fully clean row for patient P1 (file position 3). -/
def dupRow2 : InRow :=
  { rowNumber := 3, emrPatientId := some "P1", name := some "Kim",
    dob := some ⟨1980, 1, 1⟩, sex := some "M", admissionDate := some ⟨2024, 1, 1⟩ }

/-- Fully clean row for patient P1 (file position 4). -/
def dupRow3 : InRow :=
  { rowNumber := 4, emrPatientId := some "P1", name := some "Kim",
    dob := some ⟨1980, 1, 1⟩, sex := some "M", admissionDate := some ⟨2024, 1, 1⟩ }

/-- A stored patient row for P1. -/
def patientKim : Patient := ⟨5, "P1", "Kim", ⟨1980, 1, 1⟩, "M", none, "ACTIVE", false⟩

/-- Database holding only `patientKim`. -/
def dbC1 : DB := { patients := [patientKim], nextId := 6 }

/-- Incoming row for P1 whose name differs from the stored one. -/
def rowLee : InRow :=
  { rowNumber := 2, emrPatientId := some "P1", name := some "Lee",
    dob := some ⟨1980, 1, 1⟩, sex := some "M", admissionDate := some ⟨2024, 1, 1⟩ }

/-- A stored doctor row. -/
def docPark : Doctor := ⟨2, "Park", some "D1", true, false⟩

/-- An internally edited appointment (source INTERNAL) for P1. -/
def apInternal : Appointment :=
  ⟨3, some "A1", 5, 2, none, "2024-01-02T09:00:00", "2024-01-02T09:30:00",
   "BOOKED", "INTERNAL", none, false, 4, false⟩

/-- Database holding `patientKim`, `docPark` and `apInternal`. -/
def dbC2 : DB :=
  { patients := [patientKim], doctors := [docPark], appointments := [apInternal], nextId := 9 }

/-- EMR update row for appointment A1 with a different (10:00) start. -/
def rowApt : OutRow :=
  { row := 2, emrPatientId := some "P1", patientName := some "Kim",
    emrAppointmentId := some "A1", appointmentDate := some "2024-01-02",
    startTime := some "10:00", endTime := some "10:30",
    doctorName := some "Park", emrDoctorId := some "D1", status := some "BOOKED" }

/-- Ledger already holding a SUCCESS import for hash3. -/
def dbC3 : DB := { imports := [⟨0, "hash3", "INPATIENT", "SUCCESS"⟩], nextId := 1 }

/-- Environment re-delivering the hash3 content. -/
def envC3 : FileEnv := ⟨true, true, "hash3", [], nowD⟩

/-! Helper lemmas. -/

theorem Stats.bump_total (s : Stats) (t : UpsertTag) : (s.bump t).total = s.total + 1 := by
  cases t <;> simp [Stats.bump, Stats.total] <;> omega

theorem IsPartition.length_eq {α : Type} {l l1 l2 : List α} (h : IsPartition l l1 l2) :
    l1.length + l2.length = l.length := by
  induction h with
  | nil => rfl
  | left a _ ih => simp only [List.length_cons]; omega
  | right a _ ih => simp only [List.length_cons]; omega

theorem validateRowsAux_partition (now : Date) (rows : List InRow) : ∀ seen,
    IsPartition rows (validateRowsAux now seen rows).1
      ((validateRowsAux now seen rows).2.1.map ErrRow.raw) := by
  induction rows with
  | nil => intro seen; exact .nil
  | cons row rest ih =>
    intro seen
    by_cases h1 : row.errs = []
    · by_cases h2 : row.emrPatientId.getD "" ∈ seen
      · simpa [validateRowsAux, h1, h2] using .right row (ih seen)
      · by_cases h3 : rowBusinessErrors now row = []
        · simpa [validateRowsAux, h1, h2, h3] using .left row (ih _)
        · simpa [validateRowsAux, h1, h2, h3] using .right row (ih _)
    · simpa [validateRowsAux, h1] using .right row (ih seen)

theorem validateRows_length (now : Date) (rows : List InRow) :
    (validateRows now rows).1.length + (validateRows now rows).2.length = rows.length := by
  have h := (validateRowsAux_partition now rows []).length_eq
  simpa [validateRows] using h

theorem upsertPatientsGo_total (importId : Nat) (rows : List InRow) :
    ∀ db stats out, upsertPatientsGo importId db stats rows = some out →
      out.2.total = stats.total + rows.length := by
  induction rows with
  | nil =>
    intro db stats out h
    simp only [upsertPatientsGo, Option.some_inj] at h
    simp [← h]
  | cons row rest ih =>
    intro db stats out h
    simp only [upsertPatientsGo] at h
    cases hr : upsertPatientRow importId db row with
    | none => rw [hr] at h; exact absurd h (by simp)
    | some p =>
      rw [hr] at h
      have := ih p.1 (stats.bump p.2) out h
      rw [this, Stats.bump_total]
      simp only [List.length_cons]
      omega

theorem upsertAppointmentsGo_total (importId : Nat) (rows : List OutRow) :
    ∀ db stats, ((upsertAppointmentsGo importId db stats rows).2).total
      = stats.total + rows.length := by
  induction rows with
  | nil => intro db stats; simp [upsertAppointmentsGo]
  | cons row rest ih =>
    intro db stats
    simp only [upsertAppointmentsGo]
    rw [ih, Stats.bump_total]
    simp only [List.length_cons]
    omega

/-! Theorems for the claims. -/

/-- C9: validate_rows is a total partition — every input row lands in
exactly one of the two outputs (the error side carrying it as its `raw`
payload), both outputs preserve the input's relative order, nothing is
dropped or duplicated, and the output lengths sum to the input length. -/
theorem c9_validate_rows_total_partition (now : Date) (rows : List InRow) :
    IsPartition rows (validateRows now rows).1 ((validateRows now rows).2.map ErrRow.raw) ∧
    (validateRows now rows).1.length + (validateRows now rows).2.length = rows.length := by
  refine ⟨?_, validateRows_length now rows⟩
  simpa [validateRows] using validateRowsAux_partition now rows []

/-- C10: both importers count every valid row exactly once, so
created + updated + conflicts + skipped equals the number of rows passed in
(for the inpatient importer, whenever the call returns at all; outpatient
row-level exceptions land in skipped). -/
theorem c10_importer_stats_accounting :
    (∀ (db : DB) (rows : List InRow) (importId : Nat) (out : DB × Stats),
        upsertPatients db rows importId = some out → out.2.total = rows.length) ∧
    (∀ (db : DB) (rows : List OutRow) (importId : Nat),
        ((upsertAppointments db rows importId).2).total = rows.length) := by
  constructor
  · intro db rows importId out h
    have := upsertPatientsGo_total importId rows db {} out h
    simpa [Stats.total] using this
  · intro db rows importId
    have := upsertAppointmentsGo_total importId rows db {}
    simpa [Stats.total, upsertAppointments] using this

/-- Witness for C10 at a concrete row list. -/
theorem c10_witness :
    ((upsertPatients {} [rowLee] 0).map fun out => out.2.total) = some 1 := by
  cases h : upsertPatients {} [rowLee] 0 with
  | none => exact absurd h (by decide)
  | some out =>
    have := c10_importer_stats_accounting.1 {} [rowLee] 0 out h
    simp [h, this]

/-- C3: check_duplicate is true exactly when the Import ledger holds a prior
record with the same hash in status SUCCESS or PROCESSING, and on a
duplicate the inpatient runner archives the file with the database left
completely untouched (in particular no new Import record). -/
theorem c3_duplicate_fingerprint_dedup (fileHash : String) (db : DB) (env : FileEnv) :
    (checkDuplicate fileHash db.imports = true ↔
      ∃ rec ∈ db.imports, rec.fileHash = fileHash ∧
        (rec.status = "SUCCESS" ∨ rec.status = "PROCESSING")) ∧
    (env.ready = true → env.integrityOk = true →
      checkDuplicate env.fileHash db.imports = true →
      processInpatientFile env db = (db, .archive)) := by
  constructor
  · simp [checkDuplicate, List.countP_pos_iff]
  · intro h1 h2 h3
    unfold processInpatientFile
    simp [h1, h2, h3]

/-- Witness for C3: re-delivered hash3 content is archived with no write. -/
theorem c3_witness : processInpatientFile envC3 dbC3 = (dbC3, FileDest.archive) :=
  (c3_duplicate_fingerprint_dedup "hash3" dbC3 envC3).2 rfl rfl (by decide)

theorem forall2_map_self {α : Type} (R : α → α → Prop) (f : α → α) (hf : ∀ x, R x (f x)) :
    ∀ l : List α, List.Forall₂ R l (l.map f)
  | [] => .nil
  | a :: l => .cons (hf a) (forall2_map_self R f hf l)

/-- C1: for a valid row matching an existing non-deleted patient, an
identity mismatch (name, formatted dob, or sex) creates exactly one OPEN
PatientIdentityConflict carrying the before/after snapshots and leaves the
Patient table entirely unchanged; with no mismatch, no conflict is created
and every patient row is unchanged except possibly the phone field. -/
theorem c1_identity_conflict_exclusive (importId : Nat) (db : DB) (row : InRow)
    (emrId name sex : String) (dob : Date) (p : Patient)
    (he : row.emrPatientId = some emrId) (hn : row.name = some name)
    (hd : row.dob = some dob) (hs : row.sex = some sex)
    (hp : findPatient db emrId = some p) :
    (identityChanged p name dob sex = true →
      upsertPatientRow importId db row =
        some ({ db with conflicts := db.conflicts ++
          [⟨importId, emrId, p.name, fmtDate p.dob, p.sex, name, fmtDate dob, sex, "OPEN"⟩] },
          .conflicts)) ∧
    (identityChanged p name dob sex = false →
      ∃ db2 tag, upsertPatientRow importId db row = some (db2, tag) ∧
        db2.conflicts = db.conflicts ∧
        List.Forall₂ (fun q q2 : Patient =>
          q2.id = q.id ∧ q2.emrPatientId = q.emrPatientId ∧ q2.name = q.name ∧
          q2.dob = q.dob ∧ q2.sex = q.sex ∧ q2.status = q.status ∧ q2.deleted = q.deleted)
          db.patients db2.patients) := by
  constructor
  · intro hic
    simp [upsertPatientRow, he, hn, hd, hs, hp, hic]
  · intro hic
    by_cases hph : (p.phone != row.phone && row.phone.isSome) = true
    · refine ⟨{ db with patients := db.patients.map fun q =>
          if q.id == p.id then { q with phone := row.phone } else q }, .updated, ?_, rfl, ?_⟩
      · simp [upsertPatientRow, he, hn, hd, hs, hp, hic, hph]
      · exact forall2_map_self
          (fun q q2 : Patient =>
            q2.id = q.id ∧ q2.emrPatientId = q.emrPatientId ∧ q2.name = q.name ∧
            q2.dob = q.dob ∧ q2.sex = q.sex ∧ q2.status = q.status ∧ q2.deleted = q.deleted)
          (fun q => if q.id == p.id then { q with phone := row.phone } else q)
          (fun q => by by_cases hq : (q.id == p.id) = true <;> simp [hq])
          db.patients
    · refine ⟨db, .skipped, ?_, rfl, ?_⟩
      · simp [upsertPatientRow, he, hn, hd, hs, hp, hic, hph]
      · exact List.forall₂_same.mpr fun x _ => ⟨rfl, rfl, rfl, rfl, rfl, rfl, rfl⟩

/-- Witness for C1: stored Kim, incoming Lee — one OPEN conflict with the
before/after snapshots, patient untouched. -/
theorem c1_witness :
    upsertPatientRow 7 dbC1 rowLee =
      some ({ dbC1 with
        conflicts := [⟨7, "P1", "Kim", "1980-01-01", "M", "Lee", "1980-01-01", "M", "OPEN"⟩] },
        .conflicts) :=
  (c1_identity_conflict_exclusive 7 dbC1 rowLee "P1" "Lee" "M" ⟨1980, 1, 1⟩ patientKim
    rfl rfl rfl rfl (by decide)).1 (by decide)

/-- C2: an EMR update that the change test flags against an existing
non-deleted appointment raises conflictFlag and bumps the version while
leaving startAt/endAt/doctorId/status (and everything else) unchanged when
the stored source is INTERNAL, and overwrites those fields (bumping the
version, source set to EMR) when the stored source is not INTERNAL. -/
theorem c2_appointment_conflict_precedence (importId : Nat) (db : DB) (row : OutRow)
    (emrPid aptDate st et : String)
    (hf1 : row.emrPatientId = some emrPid) (hf2 : row.appointmentDate = some aptDate)
    (hf3 : row.startTime = some st) (hf4 : row.endTime = some et)
    (p : Patient)
    (hp : db.patients.find? (fun q => q.emrPatientId == emrPid && !q.deleted) = some p)
    (doc : Doctor) (hdid : truthyOpt row.emrDoctorId = true)
    (hdoc : db.doctors.find? (fun d => d.emrDoctorId == row.emrDoctorId && !d.deleted) = some doc)
    (ap : Appointment) (haid : truthyOpt row.emrAppointmentId = true)
    (hap : db.appointments.find?
      (fun a => a.emrAppointmentId == row.emrAppointmentId && !a.deleted) = some ap)
    (hch : detectChanged ap (aptDate ++ "T" ++ st ++ ":00") (aptDate ++ "T" ++ et ++ ":00")
      doc.id (row.status.getD "BOOKED") = true) :
    (ap.source = "INTERNAL" →
      upsertAppointmentRow importId db row =
        ({ db with appointments := db.appointments.map fun a =>
            if a.id == ap.id then { a with conflictFlag := true, version := a.version + 1 }
            else a },
         .conflicts)) ∧
    (ap.source ≠ "INTERNAL" →
      upsertAppointmentRow importId db row =
        ({ db with appointments := db.appointments.map fun a =>
            if a.id == ap.id then
              { a with
                  startAt := aptDate ++ "T" ++ st ++ ":00"
                  endAt := aptDate ++ "T" ++ et ++ ":00"
                  doctorId := doc.id
                  clinicRoomId := findClinicRoom db row.clinicRoomName
                  status := row.status.getD "BOOKED"
                  notes := row.notes
                  source := "EMR"
                  version := a.version + 1 }
            else a },
         .updated)) := by
  constructor
  · intro hsrc
    simp [upsertAppointmentRow, hf1, hf2, hf3, hf4, findOrCreatePatientOut, hp,
      findOrCreateDoctor, hdid, hdoc, haid, hap, hch, hsrc]
  · intro hsrc
    simp [upsertAppointmentRow, hf1, hf2, hf3, hf4, findOrCreatePatientOut, hp,
      findOrCreateDoctor, hdid, hdoc, haid, hap, hch, hsrc]

/-- Witness for C2: an INTERNAL appointment receiving a differing EMR row
ends with conflictFlag true, version 5, and identical substantive fields. -/
theorem c2_witness :
    upsertAppointmentRow 1 dbC2 rowApt =
      ({ dbC2 with appointments :=
          [⟨3, some "A1", 5, 2, none, "2024-01-02T09:00:00", "2024-01-02T09:30:00",
            "BOOKED", "INTERNAL", none, true, 5, false⟩] },
       .conflicts) :=
  (c2_appointment_conflict_precedence 1 dbC2 rowApt "P1" "2024-01-02" "10:00" "10:30"
    rfl rfl rfl rfl patientKim (by decide) docPark (by decide) (by decide)
    apInternal (by decide) (by decide) (by decide)).1 rfl

theorem upsertPatientRow_imports (importId : Nat) (db : DB) (row : InRow) (out : DB × UpsertTag)
    (h : upsertPatientRow importId db row = some out) : out.1.imports = db.imports := by
  unfold upsertPatientRow at h
  split at h
  · rw [Option.some_inj] at h
    subst h
    rename_i emrId name dob sex _ _ _ _
    cases hf : findPatient db emrId <;> simp [hf] <;> split_ifs <;> rfl
  · exact absurd h (by simp)

theorem upsertPatientsGo_imports (importId : Nat) (rows : List InRow) :
    ∀ db stats out, upsertPatientsGo importId db stats rows = some out →
      out.1.imports = db.imports := by
  induction rows with
  | nil =>
    intro db stats out h
    simp only [upsertPatientsGo, Option.some_inj] at h
    simp [← h]
  | cons row rest ih =>
    intro db stats out h
    simp only [upsertPatientsGo] at h
    cases hr : upsertPatientRow importId db row with
    | none => rw [hr] at h; exact absurd h (by simp)
    | some p =>
      rw [hr] at h
      rw [ih p.1 (stats.bump p.2) out h]
      exact upsertPatientRow_imports importId db row p hr

theorem upsertPatientsGo_isSome (importId : Nat) (rows : List InRow)
    (hall : ∀ r ∈ rows, r.emrPatientId.isSome ∧ r.name.isSome ∧ r.dob.isSome ∧ r.sex.isSome) :
    ∀ db stats, ∃ out, upsertPatientsGo importId db stats rows = some out := by
  induction rows with
  | nil => intro db stats; exact ⟨_, rfl⟩
  | cons row rest ih =>
    intro db stats
    obtain ⟨h1, h2, h3, h4⟩ := hall row (by simp)
    obtain ⟨e, he⟩ := Option.isSome_iff_exists.mp h1
    obtain ⟨nm, hnm⟩ := Option.isSome_iff_exists.mp h2
    obtain ⟨d, hd⟩ := Option.isSome_iff_exists.mp h3
    obtain ⟨sx, hsx⟩ := Option.isSome_iff_exists.mp h4
    have hrow : ∃ p, upsertPatientRow importId db row = some p := by
      simp [upsertPatientRow, he, hnm, hd, hsx]
    obtain ⟨p, hp⟩ := hrow
    obtain ⟨out, hout⟩ := ih (fun r hr => hall r (by simp [hr])) p.1 (stats.bump p.2)
    exact ⟨out, by simp [upsertPatientsGo, hp, hout]⟩

theorem findOrCreatePatientOut_imports (db : DB) (a b : String) :
    (findOrCreatePatientOut db a b).1.imports = db.imports := by
  unfold findOrCreatePatientOut
  split <;> rfl

theorem findOrCreateDoctor_imports (db : DB) (n : String) (e : Option String) :
    (findOrCreateDoctor db n e).1.imports = db.imports := by
  unfold findOrCreateDoctor
  dsimp only
  split
  · rfl
  · split
    · split <;> rfl
    · rfl

theorem upsertAppointmentRow_imports (importId : Nat) (db : DB) (row : OutRow) :
    (upsertAppointmentRow importId db row).1.imports = db.imports := by
  unfold upsertAppointmentRow
  split
  · dsimp only
    split
    · simp [findOrCreatePatientOut_imports]
    · split
      · simp [findOrCreateDoctor_imports, findOrCreatePatientOut_imports]
      · split
        · split_ifs <;>
            simp [findOrCreateDoctor_imports, findOrCreatePatientOut_imports]
        · simp [findOrCreateDoctor_imports, findOrCreatePatientOut_imports]
  · rfl

theorem upsertAppointmentsGo_imports (importId : Nat) (rows : List OutRow) :
    ∀ db stats, ((upsertAppointmentsGo importId db stats rows).1).imports = db.imports := by
  induction rows with
  | nil => intro db stats; rfl
  | cons row rest ih =>
    intro db stats
    simp only [upsertAppointmentsGo]
    rw [ih, upsertAppointmentRow_imports]

theorem map_setStatus_fresh (imports : List ImportRec) (n : Nat)
    (h : ∀ i ∈ imports, i.id ≠ n) (rec : ImportRec) (hrec : rec.id = n) (s : String) :
    (imports ++ [rec]).map (fun i => if i.id == n then { i with status := s } else i)
      = imports ++ [{ rec with status := s }] := by
  induction imports with
  | nil => simp [hrec]
  | cons a l ih =>
    have ha : ¬a.id = n := h a (by simp)
    simp only [List.cons_append, List.map_cons]
    rw [if_neg (by simpa using ha), ih (fun i hi => h i (List.mem_cons_of_mem _ hi))]

theorem length_filter_err_split (rows : List OutRow) :
    (rows.filter (fun r => r.err.isSome)).length
      + (rows.filter (fun r => r.err.isNone)).length = rows.length := by
  induction rows with
  | nil => rfl
  | cons a l ih => cases ha : a.err <;> simp [List.filter_cons, ha] <;> omega

/-- C4: for a processed file with at least one parsed row and no uncaught
exception, the Import ends FAIL when every row landed in the error
partition, and SUCCESS as soon as one row is valid, however many others
errored — on both the inpatient and the outpatient paths. -/
theorem c4_final_status_policy :
    (∀ (env : FileEnv) (db : DB) (rows : List InRow),
      env.ready = true → env.integrityOk = true →
      checkDuplicate env.fileHash db.imports = false →
      (∀ i ∈ db.imports, i.id ≠ db.nextId) →
      parseInpatientFile env.sheet = .ok rows → rows ≠ [] →
      (∀ r ∈ (validateRows env.now rows).1,
        r.emrPatientId.isSome ∧ r.name.isSome ∧ r.dob.isSome ∧ r.sex.isSome) →
      ((validateRows env.now rows).2.length = rows.length →
        (processInpatientFile env db).1.imports
          = db.imports ++ [⟨db.nextId, env.fileHash, "INPATIENT", "FAIL"⟩] ∧
        (processInpatientFile env db).2 = .archive) ∧
      ((validateRows env.now rows).1 ≠ [] →
        (processInpatientFile env db).1.imports
          = db.imports ++ [⟨db.nextId, env.fileHash, "INPATIENT", "SUCCESS"⟩] ∧
        (processInpatientFile env db).2 = .archive)) ∧
    (∀ (env : FileEnv) (db : DB),
      env.ready = true → env.integrityOk = true →
      checkDuplicate env.fileHash db.imports = false →
      (∀ i ∈ db.imports, i.id ≠ db.nextId) →
      parseOutpatientFile env.sheet ≠ [] →
      (((parseOutpatientFile env.sheet).filter (fun r => r.err.isSome)).length
          = (parseOutpatientFile env.sheet).length →
        (processOutpatientFile env db).1.imports
          = db.imports ++ [⟨db.nextId, env.fileHash, "OUTPATIENT", "FAIL"⟩] ∧
        (processOutpatientFile env db).2 = .archive) ∧
      ((parseOutpatientFile env.sheet).filter (fun r => r.err.isNone) ≠ [] →
        (processOutpatientFile env db).1.imports
          = db.imports ++ [⟨db.nextId, env.fileHash, "OUTPATIENT", "SUCCESS"⟩] ∧
        (processOutpatientFile env db).2 = .archive)) := by
  constructor
  · intro env db rows h1 h2 h3 hfresh hparse hne hfields
    obtain ⟨out, hout⟩ := upsertPatientsGo_isSome db.nextId (validateRows env.now rows).1 hfields
      (if (validateRows env.now rows).2.isEmpty then
        { db with
            imports := db.imports ++ [⟨db.nextId, env.fileHash, "INPATIENT", "PROCESSING"⟩]
            nextId := db.nextId + 1 }
       else saveImportErrors
        { db with
            imports := db.imports ++ [⟨db.nextId, env.fileHash, "INPATIENT", "PROCESSING"⟩]
            nextId := db.nextId + 1 } db.nextId (validateRows env.now rows).2) {}
    have himp : out.1.imports
        = db.imports ++ [⟨db.nextId, env.fileHash, "INPATIENT", "PROCESSING"⟩] := by
      rw [upsertPatientsGo_imports db.nextId (validateRows env.now rows).1 _ {} out hout]
      split_ifs <;> rfl
    have hkey : processInpatientFile env db
        = (setImportStatus out.1 db.nextId
            (if (validateRows env.now rows).2.length == rows.length then "FAIL" else "SUCCESS"),
           .archive) := by
      simp only [processInpatientFile, createImportRecord, upsertPatients, h1, h2, h3, hparse,
        Bool.not_true, Bool.false_eq_true, if_false, hout]
      rw [if_neg (by simpa using hne)]
    have hstat : ∀ s, (setImportStatus out.1 db.nextId s).imports
        = db.imports ++ [⟨db.nextId, env.fileHash, "INPATIENT", s⟩] := by
      intro s
      simp only [setImportStatus, himp]
      exact map_setStatus_fresh db.imports db.nextId hfresh _ rfl s
    constructor
    · intro herr
      rw [hkey]
      refine ⟨?_, rfl⟩
      rw [if_pos (by simpa using herr)]
      exact hstat "FAIL"
    · intro hval
      have hlen := validateRows_length env.now rows
      have hne2 : (validateRows env.now rows).2.length ≠ rows.length := by
        have : 0 < (validateRows env.now rows).1.length := List.length_pos.mpr hval
        omega
      rw [hkey]
      refine ⟨?_, rfl⟩
      rw [if_neg (by simpa using hne2)]
      exact hstat "SUCCESS"
  · intro env db h1 h2 h3 hfresh hne
    have hmain : ∀ sfin,
        (if ((parseOutpatientFile env.sheet).filter (fun r => r.err.isSome)).length
            == (parseOutpatientFile env.sheet).length then "FAIL" else "SUCCESS") = sfin →
        (processOutpatientFile env db).1.imports
          = db.imports ++ [⟨db.nextId, env.fileHash, "OUTPATIENT", sfin⟩] ∧
        (processOutpatientFile env db).2 = .archive := by
      intro sfin hsfin
      simp only [processOutpatientFile, createImportRecord, h1, h2, h3,
        Bool.not_true, Bool.false_eq_true, if_false]
      rw [if_neg (by simpa using hne)]
      refine ⟨?_, rfl⟩
      rw [hsfin]
      simp only [setImportStatus, upsertAppointments, upsertAppointmentsGo_imports]
      have hpre : (if ((parseOutpatientFile env.sheet).filter fun r => r.err.isSome).isEmpty then
          { db with
              imports := db.imports ++ [⟨db.nextId, env.fileHash, "OUTPATIENT", "PROCESSING"⟩]
              nextId := db.nextId + 1 }
         else saveOutpatientErrors
          { db with
              imports := db.imports ++ [⟨db.nextId, env.fileHash, "OUTPATIENT", "PROCESSING"⟩]
              nextId := db.nextId + 1 } db.nextId
          ((parseOutpatientFile env.sheet).filter fun r => r.err.isSome)).imports
          = db.imports ++ [⟨db.nextId, env.fileHash, "OUTPATIENT", "PROCESSING"⟩] := by
        split_ifs <;> rfl
      rw [hpre]
      exact map_setStatus_fresh db.imports db.nextId hfresh _ rfl sfin
    constructor
    · intro herr
      exact hmain "FAIL" (if_pos (by simpa using herr))
    · intro hval
      have hlen := length_filter_err_split (parseOutpatientFile env.sheet)
      have hne2 : ((parseOutpatientFile env.sheet).filter (fun r => r.err.isSome)).length
          ≠ (parseOutpatientFile env.sheet).length := by
        have : 0 < ((parseOutpatientFile env.sheet).filter (fun r => r.err.isNone)).length :=
          List.length_pos.mpr hval
        omega
      exact hmain "SUCCESS" (if_neg (by simpa using hne2))

/-- Witness for C4: a one-valid-row inpatient file ends SUCCESS and is
archived. -/
theorem c4_witness :
    (processInpatientFile envC4 {}).1.imports = [⟨0, "hash4", "INPATIENT", "SUCCESS"⟩] ∧
    (processInpatientFile envC4 {}).2 = .archive :=
  (c4_final_status_policy.1 envC4 {}
    [⟨2, [], some "P1", some "Kim", some ⟨1980, 1, 1⟩, some "M", none, some ⟨2024, 1, 1⟩, none⟩]
    rfl rfl (by decide) (by simp) rfl (by decide) (by decide)).2 (by decide)

theorem detectHeaderRow_eq_none (sheet : Sheet)
    (h : ∀ r, 1 ≤ r → r ≤ 10 → (inHeaderColMap sheet r).length < 3) :
    detectHeaderRow sheet = none := by
  rw [detectHeaderRow, List.findSome?_eq_none_iff]
  intro x hx
  rw [List.mem_range'_1] at hx
  have h10 : x ≤ 10 := by have := hx.2; omega
  have hlt := h x hx.1 h10
  rw [if_neg (by omega)]

theorem outDetectHeader_eq_none (sheet : Sheet)
    (h : ∀ r, 1 ≤ r → r ≤ 10 →
      (outHeaderColMap ((getRow sheet r).map fun c => pyStrip (cellOrEmptyStr c))).length < 3) :
    outDetectHeader sheet = none := by
  rw [outDetectHeader, List.findSome?_eq_none_iff]
  intro x hx
  rw [List.mem_range'_1] at hx
  have h10 : x ≤ 10 := by have := hx.2; omega
  have hlt := h x hx.1 h10
  rw [if_neg (by omega)]

/-- C5 (amended): header-detection failure is fatal only on the inpatient
path — the parse raises, the Import is marked FAIL, the file goes to the
error folder and no patient/conflict/ImportError state is written.  The
outpatient parser catches the same failure and returns an empty row list,
so the worker records the Import as SUCCESS (the no-data path) and archives
the file. -/
theorem c5_header_detection_failure :
    (∀ (env : FileEnv) (db : DB),
      (∀ r, 1 ≤ r → r ≤ 10 → (inHeaderColMap env.sheet r).length < 3) →
      (∃ msg, parseInpatientFile env.sheet = .error msg) ∧
      (env.ready = true → env.integrityOk = true →
        checkDuplicate env.fileHash db.imports = false →
        (∀ i ∈ db.imports, i.id ≠ db.nextId) →
        (processInpatientFile env db).1.imports
          = db.imports ++ [⟨db.nextId, env.fileHash, "INPATIENT", "FAIL"⟩] ∧
        (processInpatientFile env db).1.patients = db.patients ∧
        (processInpatientFile env db).1.conflicts = db.conflicts ∧
        (processInpatientFile env db).1.importErrors = db.importErrors ∧
        (processInpatientFile env db).2 = .errorFolder)) ∧
    (∀ (env : FileEnv) (db : DB),
      (∀ r, 1 ≤ r → r ≤ 10 →
        (outHeaderColMap ((getRow env.sheet r).map fun c => pyStrip (cellOrEmptyStr c))).length
          < 3) →
      parseOutpatientFile env.sheet = [] ∧
      (env.ready = true → env.integrityOk = true →
        checkDuplicate env.fileHash db.imports = false →
        (∀ i ∈ db.imports, i.id ≠ db.nextId) →
        (processOutpatientFile env db).1.imports
          = db.imports ++ [⟨db.nextId, env.fileHash, "OUTPATIENT", "SUCCESS"⟩] ∧
        (processOutpatientFile env db).2 = .archive)) := by
  constructor
  · intro env db hnone
    have hdet := detectHeaderRow_eq_none env.sheet hnone
    refine ⟨?_, ?_⟩
    · simp only [parseInpatientFile, hdet]
      exact ⟨_, rfl⟩
    intro h1 h2 h3 hfresh
    have hkey : processInpatientFile env db
        = (setImportStatus
            { db with
                imports := db.imports ++ [⟨db.nextId, env.fileHash, "INPATIENT", "PROCESSING"⟩]
                nextId := db.nextId + 1 } db.nextId "FAIL",
           .errorFolder) := by
      simp [processInpatientFile, createImportRecord, parseInpatientFile, hdet, h1, h2, h3]
    rw [hkey]
    refine ⟨?_, rfl, rfl, rfl, rfl⟩
    simp only [setImportStatus]
    exact map_setStatus_fresh db.imports db.nextId hfresh _ rfl "FAIL"
  · intro env db hnone
    have hdet := outDetectHeader_eq_none env.sheet hnone
    have hparse : parseOutpatientFile env.sheet = [] := by simp [parseOutpatientFile, hdet]
    refine ⟨hparse, ?_⟩
    intro h1 h2 h3 hfresh
    have hkey : processOutpatientFile env db
        = (setImportStatus
            { db with
                imports := db.imports ++ [⟨db.nextId, env.fileHash, "OUTPATIENT", "PROCESSING"⟩]
                nextId := db.nextId + 1 } db.nextId "SUCCESS",
           .archive) := by
      simp [processOutpatientFile, createImportRecord, hparse, h1, h2, h3]
    rw [hkey]
    refine ⟨?_, rfl⟩
    simp only [setImportStatus]
    exact map_setStatus_fresh db.imports db.nextId hfresh _ rfl "SUCCESS"

/-- Counterexample for C5 as frozen: on the outpatient path a file whose
first 10 rows never match 3 header cells is NOT fatal — it is recorded as a
SUCCESS Import and archived. -/
theorem c5_counterexample :
    (∀ r, r < 11 →
      (outHeaderColMap ((getRow noHeaderSheet r).map fun c => pyStrip (cellOrEmptyStr c))).length
        < 3) ∧
    outDetectHeader noHeaderSheet = none ∧
    parseOutpatientFile noHeaderSheet = [] ∧
    processOutpatientFile envC5 {}
      = ({ imports := [⟨0, "h5", "OUTPATIENT", "SUCCESS"⟩], nextId := 1 }, .archive) := by
  refine ⟨by decide, rfl, rfl, by decide⟩

theorem enumFrom_filterMap_length (colMap : List (String × Nat)) (l : List (List Cell)) :
    ∀ n, ((l.enumFrom n).filterMap fun p =>
        if p.2.all (fun c => c == Cell.empty) then none
        else some (parseOutRow colMap p.2 p.1)).length
      = (l.filter fun cells => !(cells.all fun c => c == Cell.empty)).length := by
  induction l with
  | nil => intro n; rfl
  | cons a l ih =>
    intro n
    cases hb : (a.all fun c => c == Cell.empty) with
    | true =>
      simp only [List.enumFrom, List.filterMap_cons, List.filter_cons, hb]
      simpa using ih (n + 1)
    | false =>
      simp only [List.enumFrom, List.filterMap_cons, List.filter_cons, hb]
      simpa using ih (n + 1)

/-- C6 (amended): the required-columns superset check exists only in the
inpatient parser, where a missing required field makes the parse fail
outright; the outpatient parser defines its required-field list but never
enforces it — after header detection it emits one record per non-blank data
row regardless of which columns were detected (missing required fields
surface only as per-row errors). -/
theorem c6_required_columns :
    (∀ (sheet : Sheet) (hr : Nat) (cm : List (String × Nat)),
      detectHeaderRow sheet = some (hr, cm) →
      (∃ f ∈ REQUIRED_FIELDS_IN, dictLookup cm f = none) →
      ∃ msg, parseInpatientFile sheet = .error msg) ∧
    (∀ (sheet : Sheet) (hr : Nat) (cm : List (String × Nat)),
      outDetectHeader sheet = some (hr, cm) →
      (parseOutpatientFile sheet).length
        = ((sheet.drop hr).filter fun cells => !(cells.all fun c => c == Cell.empty)).length) := by
  constructor
  · intro sheet hr cm hdet hmiss
    obtain ⟨f, hf, hnone⟩ := hmiss
    have hmem : f ∈ REQUIRED_FIELDS_IN.filter (fun g => (dictLookup cm g).isNone) :=
      List.mem_filter.mpr ⟨hf, by simp [hnone]⟩
    have hne : ¬(REQUIRED_FIELDS_IN.filter (fun g => (dictLookup cm g).isNone)).isEmpty = true := by
      simp only [List.isEmpty_iff]
      exact List.ne_nil_of_mem hmem
    simp only [parseInpatientFile, hdet]
    rw [if_neg hne]
    exact ⟨_, rfl⟩
  · intro sheet hr cm hdet
    simp only [parseOutpatientFile, hdet]
    exact enumFrom_filterMap_length cm (sheet.drop hr) (hr + 1)

/-- Counterexample for C6 as frozen: an outpatient sheet whose detected
columns miss required fields (emrPatientId, appointmentDate) still parses —
it yields a row tagged with a per-row error instead of failing outright with
no row output. -/
theorem c6_counterexample :
    outDetectHeader partialHeaderSheet
      = some (1, [("patientName", 0), ("startTime", 1), ("doctorName", 2)]) ∧
    dictLookup [("patientName", 0), ("startTime", 1), ("doctorName", 2)] "emrPatientId"
      = none ∧
    "emrPatientId" ∈ REQUIRED_FIELDS_OUT ∧
    parseOutpatientFile partialHeaderSheet
      = [⟨2, some "환자번호 누락", none, none, none, none, none, none, none, none, none,
          none, none⟩] := by
  refine ⟨by decide, by decide, by decide, by decide⟩

/-- Witness for C5 at a concrete no-header sheet and empty database. -/
theorem c5_witness :
    (∃ msg, parseInpatientFile noHeaderSheet = .error msg) ∧
    parseOutpatientFile noHeaderSheet = [] :=
  ⟨((c5_header_detection_failure.1 ⟨true, true, "h", noHeaderSheet, nowD⟩ {})
      (by decide)).1,
   ((c5_header_detection_failure.2 ⟨true, true, "h", noHeaderSheet, nowD⟩ {})
      (by decide)).1⟩

/-- Witness for C6: inpatient parse of a sheet whose header misses the dob
column fails outright. -/
theorem c6_witness :
    ∃ msg, parseInpatientFile
      [[Cell.str "환자번호", Cell.str "환자명", Cell.str "성별"]] = .error msg :=
  c6_required_columns.1 [[Cell.str "환자번호", Cell.str "환자명", Cell.str "성별"]] 1
    [("emrPatientId", 1), ("name", 2), ("sex", 3)] (by decide)
    ⟨"dob", by decide, by decide⟩

theorem validateRowsAux_append (now : Date) (xs ys : List InRow) : ∀ seen,
    validateRowsAux now seen (xs ++ ys)
      = ((validateRowsAux now seen xs).1
            ++ (validateRowsAux now (validateRowsAux now seen xs).2.2 ys).1,
         (validateRowsAux now seen xs).2.1
            ++ (validateRowsAux now (validateRowsAux now seen xs).2.2 ys).2.1,
         (validateRowsAux now (validateRowsAux now seen xs).2.2 ys).2.2) := by
  induction xs with
  | nil => intro seen; simp [validateRowsAux]
  | cons row rest ih =>
    intro seen
    by_cases h1 : row.errs = []
    · by_cases h2 : row.emrPatientId.getD "" ∈ seen
      · simp [validateRowsAux, h1, h2, ih]
      · by_cases h3 : rowBusinessErrors now row = []
        · simp [validateRowsAux, h1, h2, h3, ih]
        · simp [validateRowsAux, h1, h2, h3, ih]
    · simp [validateRowsAux, h1, ih]

theorem validateRowsAux_seen_mono (now : Date) (rows : List InRow) :
    ∀ seen x, x ∈ seen → x ∈ (validateRowsAux now seen rows).2.2 := by
  induction rows with
  | nil => intro seen x hx; exact hx
  | cons row rest ih =>
    intro seen x hx
    by_cases h1 : row.errs = []
    · by_cases h2 : row.emrPatientId.getD "" ∈ seen
      · simpa [validateRowsAux, h1, h2] using ih seen x hx
      · by_cases h3 : rowBusinessErrors now row = []
        · simpa [validateRowsAux, h1, h2, h3] using ih _ x (List.mem_cons_of_mem _ hx)
        · simpa [validateRowsAux, h1, h2, h3] using ih _ x (List.mem_cons_of_mem _ hx)
    · simpa [validateRowsAux, h1] using ih seen x hx

theorem validateRowsAux_seen_notin (now : Date) (e : String) (rows : List InRow)
    (hrows : ∀ r ∈ rows, r.errs = [] → r.emrPatientId.getD "" ≠ e) :
    ∀ seen, e ∉ seen → e ∉ (validateRowsAux now seen rows).2.2 := by
  induction rows with
  | nil => intro seen hx; exact hx
  | cons row rest ih =>
    intro seen hx
    have hrest : ∀ r ∈ rest, r.errs = [] → r.emrPatientId.getD "" ≠ e :=
      fun r hr => hrows r (List.mem_cons_of_mem _ hr)
    by_cases h1 : row.errs = []
    · have hrow : row.emrPatientId.getD "" ≠ e := hrows row (by simp) h1
      by_cases h2 : row.emrPatientId.getD "" ∈ seen
      · simpa [validateRowsAux, h1, h2] using ih hrest seen hx
      · have hx2 : e ∉ row.emrPatientId.getD "" :: seen := by
          intro hmem
          rcases List.mem_cons.mp hmem with h | h
          · exact hrow h.symm
          · exact hx h
        by_cases h3 : rowBusinessErrors now row = []
        · simpa [validateRowsAux, h1, h2, h3] using ih hrest _ hx2
        · simpa [validateRowsAux, h1, h2, h3] using ih hrest _ hx2
    · simpa [validateRowsAux, h1] using ih hrest seen hx

/-- C7 (amended): among rows free of parser-level errors, the first
occurrence of an emrPatientId consumes it; so when no earlier
parser-error-free row in the file carries the same id, a fully clean row is
placed in the valid partition and every later parser-error-free row with
that id is routed to the error partition with the duplicate-id message.
(The claim as frozen — the earlier of any two error-free rows is valid —
fails when a still earlier row shares the id but dies on a business rule;
see the counterexample.) -/
theorem c7_intra_file_duplicate (now : Date) (pre mid post : List InRow) (r1 r2 : InRow)
    (e : String)
    (h1e : r1.errs = []) (h2e : r2.errs = [])
    (h1id : r1.emrPatientId.getD "" = e) (h2id : r2.emrPatientId.getD "" = e)
    (h1ok : rowBusinessErrors now r1 = [])
    (hpre : ∀ r ∈ pre, r.errs = [] → r.emrPatientId.getD "" ≠ e) :
    r1 ∈ (validateRows now (pre ++ r1 :: (mid ++ r2 :: post))).1 ∧
    (⟨r2.rowNumber, ["파일 내 환자번호 중복: " ++ e], r2⟩ : ErrRow)
      ∈ (validateRows now (pre ++ r1 :: (mid ++ r2 :: post))).2 := by
  have hA : e ∉ (validateRowsAux now [] pre).2.2 :=
    validateRowsAux_seen_notin now e pre hpre [] (by simp)
  have hstep1 : validateRowsAux now (validateRowsAux now [] pre).2.2
      (r1 :: (mid ++ r2 :: post))
      = (r1 :: (validateRowsAux now (e :: (validateRowsAux now [] pre).2.2)
            (mid ++ r2 :: post)).1,
         (validateRowsAux now (e :: (validateRowsAux now [] pre).2.2)
            (mid ++ r2 :: post)).2.1,
         (validateRowsAux now (e :: (validateRowsAux now [] pre).2.2)
            (mid ++ r2 :: post)).2.2) := by
    simp only [validateRowsAux]
    simp [h1e, h1id, hA, h1ok]
  have hm : e ∈ (validateRowsAux now (e :: (validateRowsAux now [] pre).2.2) mid).2.2 :=
    validateRowsAux_seen_mono now mid _ e (by simp)
  have hstep2 : validateRowsAux now
      (validateRowsAux now (e :: (validateRowsAux now [] pre).2.2) mid).2.2 (r2 :: post)
      = ((validateRowsAux now
            (validateRowsAux now (e :: (validateRowsAux now [] pre).2.2) mid).2.2 post).1,
         (⟨r2.rowNumber, ["파일 내 환자번호 중복: " ++ e], r2⟩ : ErrRow)
          :: (validateRowsAux now
            (validateRowsAux now (e :: (validateRowsAux now [] pre).2.2) mid).2.2 post).2.1,
         (validateRowsAux now
            (validateRowsAux now (e :: (validateRowsAux now [] pre).2.2) mid).2.2 post).2.2) := by
    simp only [validateRowsAux]
    simp [h2e, h2id, hm]
  constructor
  · simp only [validateRows, validateRowsAux_append now pre (r1 :: (mid ++ r2 :: post)), hstep1]
    simp
  · simp only [validateRows, validateRowsAux_append now pre (r1 :: (mid ++ r2 :: post)), hstep1]
    simp only [validateRowsAux_append now mid (r2 :: post), hstep2]
    simp

/-- Counterexample for C7 as frozen: dupRow2 and dupRow3 are both error-free
rows (each one validates alone as valid) sharing id P1, dupRow2 is earlier,
yet in the file [dupRow1, dupRow2, dupRow3] — where the parser-error-free
dupRow1 consumes P1 before failing the age business rule — dupRow2 is routed
to the error partition as a duplicate, not to the valid partition. -/
theorem c7_counterexample :
    dupRow2.emrPatientId = dupRow3.emrPatientId ∧
    validateRows nowD [dupRow2] = ([dupRow2], []) ∧
    validateRows nowD [dupRow3] = ([dupRow3], []) ∧
    (validateRows nowD [dupRow1, dupRow2, dupRow3]).1 = [] ∧
    (validateRows nowD [dupRow1, dupRow2, dupRow3]).2
      = [⟨2, ["생년월일이 범위를 벗어납니다: 1800-01-01"], dupRow1⟩,
         ⟨3, ["파일 내 환자번호 중복: P1"], dupRow2⟩,
         ⟨4, ["파일 내 환자번호 중복: P1"], dupRow3⟩] := by
  refine ⟨rfl, by decide, by decide, by decide, by decide⟩

/-- Witness for C7 at a concrete two-row file: the first clean P1 row is
valid, the second is a duplicate error. -/
theorem c7_witness :
    dupRow2 ∈ (validateRows nowD [dupRow2, dupRow3]).1 ∧
    (⟨4, ["파일 내 환자번호 중복: P1"], dupRow3⟩ : ErrRow)
      ∈ (validateRows nowD [dupRow2, dupRow3]).2 :=
  c7_intra_file_duplicate nowD [] [] [] dupRow2 dupRow3 "P1" rfl rfl rfl rfl (by decide)
    (by simp)

theorem hmPiece_le (l : List Char) (b v : Nat) (h : hmPiece l b = some v) : v ≤ b := by
  simp only [hmPiece] at h
  split_ifs at h with h1 h2
  injection h with h3
  omega

theorem digit_le_nine (c : Char) (h : isDigitCh c = true) : c.toNat - ('0').toNat ≤ 9 := by
  simp only [isDigitCh, Bool.and_eq_true, decide_eq_true_eq] at h
  have h48 : ('0').toNat = 48 := rfl
  omega

theorem digitsVal_single_le (c : Char) (h : isDigitCh c = true) : digitsVal [c] ≤ 9 := by
  have := digit_le_nine c h
  simpa [digitsVal, List.foldl] using this

theorem digitsVal_take_one_le (l : List Char) (hd : allDigits l = true) (hne : l ≠ []) :
    digitsVal (l.take 1) ≤ 9 := by
  cases l with
  | nil => exact absurd rfl hne
  | cons a rest =>
    simp only [allDigits, List.all_cons, Bool.and_eq_true] at hd
    simpa [List.take] using digitsVal_single_le a hd.1

theorem digitsVal_drop_single_le (l : List Char) (hd : allDigits l = true) (k : Nat)
    (hlen : (l.drop k).length = 1) : digitsVal (l.drop k) ≤ 9 := by
  obtain ⟨c, hc⟩ := List.length_eq_one.mp hlen
  have hcmem : c ∈ l := List.drop_subset k l (hc ▸ List.mem_singleton_self c)
  have hdc : isDigitCh c = true := List.all_eq_true.mp hd c hcmem
  rw [hc]
  exact digitsVal_single_le c hdc

theorem parseCompactTime_bounds (s : String) (t : TimeHM)
    (h : parseCompactTime s = some t) : t.h ≤ 23 ∧ t.m ≤ 59 := by
  simp only [parseCompactTime] at h
  split_ifs at h with hnd hl2 hl3 h23 h59 hl4 hb
  · have hd : allDigits s.data = true := by simpa using hnd
    have hlen : s.data.length = 2 := by
      have h2 := hl2
      simp only [beq_iff_eq] at h2
      exact h2
    have hne : s.data ≠ [] := List.length_pos.mp (by omega)
    rw [Option.some_inj] at h
    subst h
    refine ⟨?_, ?_⟩
    · have := digitsVal_take_one_le s.data hd hne
      simpa using Nat.le_trans this (by omega)
    · have := digitsVal_drop_single_le s.data hd 1 (by rw [List.length_drop, hlen])
      simpa using Nat.le_trans this (by omega)
  · have hd : allDigits s.data = true := by simpa using hnd
    have hlen : s.data.length = 3 := by
      have h3 := hl3
      simp only [beq_iff_eq] at h3
      exact h3
    rw [Option.some_inj] at h
    subst h
    refine ⟨h23, ?_⟩
    have := digitsVal_drop_single_le s.data hd 2 (by rw [List.length_drop, hlen])
    simpa using Nat.le_trans this (by omega)
  · have hd : allDigits s.data = true := by simpa using hnd
    have hlen : s.data.length = 3 := by
      have h3 := hl3
      simp only [beq_iff_eq] at h3
      exact h3
    have hne : s.data ≠ [] := List.length_pos.mp (by omega)
    rw [Option.some_inj] at h
    subst h
    refine ⟨?_, h59⟩
    have := digitsVal_take_one_le s.data hd hne
    simpa using Nat.le_trans this (by omega)
  · rw [Option.some_inj] at h
    subst h
    simp only [Bool.and_eq_true, decide_eq_true_eq] at hb
    exact hb

theorem parseColonTime_bounds (s : String) (t : TimeHM)
    (h : parseColonTime s = some t) : t.h ≤ 23 ∧ t.m ≤ 59 := by
  unfold parseColonTime at h
  split at h
  · rename_i hl ml sl hsplit
    cases hh : hmPiece hl 23 with
    | none => rw [hh] at h; exact absurd h (by simp)
    | some hv =>
      cases hm : hmPiece ml 59 with
      | none => rw [hh, hm] at h; exact absurd h (by simp)
      | some mv =>
        cases hs : hmPiece sl 59 with
        | none => rw [hh, hm, hs] at h; exact absurd h (by simp)
        | some sv =>
          rw [hh, hm, hs, Option.some_inj] at h
          subst h
          exact ⟨hmPiece_le hl 23 hv hh, hmPiece_le ml 59 mv hm⟩
  · rename_i hl ml hsplit
    cases hh : hmPiece hl 23 with
    | none => rw [hh] at h; exact absurd h (by simp)
    | some hv =>
      cases hm : hmPiece ml 59 with
      | none => rw [hh, hm] at h; exact absurd h (by simp)
      | some mv =>
        rw [hh, hm, Option.some_inj] at h
        subst h
        exact ⟨hmPiece_le hl 23 hv hh, hmPiece_le ml 59 mv hm⟩
  · exact absurd h (by simp)

theorem parseTimeText_bounds (s : String) (t : TimeHM) (h : parseTimeText s = some t) :
    t.h ≤ 23 ∧ t.m ≤ 59 := by
  unfold parseTimeText at h
  cases hc : parseColonTime s with
  | some u =>
    rw [hc] at h
    simp only [Option.orElse] at h
    rw [Option.some_inj] at h
    subst h
    exact parseColonTime_bounds s u hc
  | none =>
    rw [hc] at h
    simp only [Option.orElse] at h
    exact parseCompactTime_bounds s t h

theorem normalizeTime_shape (c : Cell) (st : String) (h : normalizeTime c = some st) :
    ∃ hh mm, hh ≤ 23 ∧ mm ≤ 59 ∧ st = fmtHM hh mm := by
  cases c with
  | empty => exact absurd h (by simp [normalizeTime])
  | dt d =>
    refine ⟨0, 0, by omega, by omega, ?_⟩
    have hst : st = "00:00" := by simpa [normalizeTime] using h.symm
    rw [hst]
    rfl
  | str s =>
    simp only [normalizeTime] at h
    cases hp : parseTimeText (pyStrip s) with
    | none => rw [hp] at h; exact absurd h (by simp)
    | some t =>
      rw [hp] at h
      obtain ⟨hb1, hb2⟩ := parseTimeText_bounds _ t hp
      exact ⟨t.h, t.m, hb1, hb2, by simpa using h.symm⟩

/-- C8 (amended): when the start time parses and the end time is missing or
unparseable, the parser stores start + 30 minutes with the minute overflow
carried into the hour; the start always normalizes to some `HH:MM` with
hour ≤ 23 and minute ≤ 59, and the synthesized result is a valid HH:MM time
of day exactly when the start is 23:29 or earlier — for a start of 23:30 or
later the hour reaches 24 and the result is not a valid time of day (the
source never reduces the hour modulo 24). -/
theorem c8_end_time_synthesis :
    (∀ (colMap : List (String × Nat)) (cells : List Cell) (rowIdx : Nat) (d st : String),
      (pyStrip (cellOrEmptyStr (outFieldCell colMap cells "emrPatientId")) == "") = false →
      normalizeDate (outFieldCell colMap cells "appointmentDate") = some d →
      normalizeTime (outFieldCell colMap cells "startTime") = some st →
      normalizeTime (outFieldCell colMap cells "endTime") = none →
      (parseOutRow colMap cells rowIdx).endTime = some (synthEnd st)) ∧
    (∀ (c : Cell) (st : String), normalizeTime c = some st →
      ∃ hh mm, hh ≤ 23 ∧ mm ≤ 59 ∧ st = fmtHM hh mm) ∧
    (∀ hh, hh < 24 → ∀ mm, mm < 60 →
      synthEnd (fmtHM hh mm)
        = (if 60 ≤ mm + 30 then fmtHM (hh + 1) (mm + 30 - 60) else fmtHM hh (mm + 30)) ∧
      (isValidHHMM (synthEnd (fmtHM hh mm)) = true ↔ (mm ≤ 29 ∨ hh ≤ 22))) := by
  refine ⟨?_, normalizeTime_shape, by decide⟩
  intro colMap cells rowIdx d st hemr hd hst het
  simp [parseOutRow, hemr, hd, hst, het]

/-- Counterexample for C8 as frozen: a 23:45 start with a missing end time
synthesizes endTime "24:15", which is not a valid HH:MM time of day. -/
theorem c8_counterexample :
    (parseOutpatientFile lateStartSheet).length = 1 ∧
    ((parseOutpatientFile lateStartSheet).getD 0 {}).startTime = some "23:45" ∧
    ((parseOutpatientFile lateStartSheet).getD 0 {}).endTime = some "24:15" ∧
    isValidHHMM "24:15" = false := by
  refine ⟨by decide, by decide, by decide, by decide⟩

/-- Witness for C8 at the specification's own example: a 09:00 start with a
missing end time synthesizes 09:30. -/
theorem c8_witness :
    (parseOutRow [("emrPatientId", 0), ("appointmentDate", 1), ("startTime", 2)]
      [Cell.str "P1", Cell.str "2024-01-02", Cell.str "09:00"] 2).endTime = some "09:30" :=
  c8_end_time_synthesis.1 [("emrPatientId", 0), ("appointmentDate", 1), ("startTime", 2)]
    [Cell.str "P1", Cell.str "2024-01-02", Cell.str "09:00"] 2 "2024-01-02" "09:00"
    rfl rfl rfl rfl

end HospitalOps
